import Mathlib

/-!
Verification of the Hebrew affect scoring engine
(`src/backend/ai_analyzer_backend.py`, class `HebrewEmotionAnalyzer`).

The engine is embedded shallowly:
* Python strings are Lean `String`s; substring containment, non-overlapping
  occurrence counting (`str.count`), `str.strip`, `str.split` and `str.lower`
  are modelled on the underlying `List Char` (lowercasing via `Char.toLower`,
  which is the identity on the Hebrew glyphs the rule lists use, matching
  Python `str.lower` on all literals that occur in the source).
* Python floats are modelled as exact rationals `ℚ`; every numeric literal in
  the source (0.5, 1.2, 0.8, 1.5, ...) is taken at its decimal value.
* The loaded configuration (`self.config['hebrew_patterns']`) is an ordered
  association list, mirroring dict insertion order.  A category whose raw JSON
  value is not a mapping is `RawData.list`.  Compiled regexes are abstracted as
  match-count functions `String → Nat` (the length of `findall`); the regex
  compiler is a parameter `compile : String → Option (String → Nat)` with
  `none` modelling `re.error`.
-/

namespace EmotionVisualizer

/-- `startsWith needle hay`: `needle` is a leading segment of `hay`. -/
def startsWith : List Char → List Char → Bool
  | [], _ => true
  | _ :: _, [] => false
  | a :: as, b :: bs => a == b && startsWith as bs

/-- Python `needle in hay`: `needle` occurs as a contiguous substring. -/
def occursIn (needle : List Char) : List Char → Bool
  | [] => needle.isEmpty
  | c :: rest => startsWith needle (c :: rest) || occursIn needle rest

/-- Helper for `countOccs`: scan left to right; `skip` positions are still
inside the previously counted occurrence. -/
def countOccsAux (needle : List Char) : List Char → Nat → Nat
  | [], _ => 0
  | c :: rest, skip =>
    if 0 < skip then countOccsAux needle rest (skip - 1)
    else if startsWith needle (c :: rest) && !needle.isEmpty then
      countOccsAux needle rest (needle.length - 1) + 1
    else countOccsAux needle rest 0

/-- Python `hay.count(needle)` for a non-empty `needle`: number of
non-overlapping occurrences, scanning left to right. -/
def countOccs (needle l : List Char) : Nat := countOccsAux needle l 0

/-- Python `str.lower`, character by character (identity on Hebrew). -/
def lowerL (l : List Char) : List Char := l.map Char.toLower

/-- `needle in hay` on the raw strings. -/
def inRaw (needle hay : String) : Bool := occursIn needle.toList hay.toList

/-- `needle in hay.lower()` (the needle is a fixed lowercase literal). -/
def inLow (needle hay : String) : Bool := occursIn needle.toList (lowerL hay.toList)

/-- `needle.lower() in hay.lower()`. -/
def inLowLow (needle hay : String) : Bool :=
  occursIn (lowerL needle.toList) (lowerL hay.toList)

/-- `hay.count(needle)` on the raw strings. -/
def cntRaw (needle hay : String) : Nat := countOccs needle.toList hay.toList

/-- `hay.lower().count(needle)`. -/
def cntLow (needle hay : String) : Nat := countOccs needle.toList (lowerL hay.toList)

/-- Python whitespace test (`str.strip` / `str.split` default set; the ASCII
part, which is all the source's inputs use). -/
def isPySpace (c : Char) : Bool := c.isWhitespace

/-- Python `s.strip()`. -/
def pyStrip (s : String) : String :=
  ⟨((s.toList.dropWhile isPySpace).reverse.dropWhile isPySpace).reverse⟩

lemma dropWhile_len_le (p : Char → Bool) :
    ∀ l : List Char, (l.dropWhile p).length ≤ l.length := by
  intro l
  induction l with
  | nil => simp [List.dropWhile]
  | cons c rest ih =>
    by_cases h : p c
    · simpa [List.dropWhile, h] using Nat.le_succ_of_le ih
    · simp [List.dropWhile, h]

/-- Helper for `wordsOf`: accumulate the current word (reversed). -/
def wordsOfAux : List Char → List Char → List (List Char)
  | [], cur => if cur.isEmpty then [] else [cur.reverse]
  | c :: rest, cur =>
    if isPySpace c then
      if cur.isEmpty then wordsOfAux rest [] else cur.reverse :: wordsOfAux rest []
    else wordsOfAux rest (c :: cur)

/-- Python `s.split()` (split on whitespace runs, no empty words). -/
def wordsOf (l : List Char) : List (List Char) := wordsOfAux l []

/-- Python `int(q)` on a float: truncation toward zero. -/
def pyTrunc (q : ℚ) : ℤ := if 0 ≤ q then ⌊q⌋ else -⌊-q⌋

/-- Python 3 `round(q)`: round half to even. -/
def pyRound (q : ℚ) : ℤ :=
  let f := ⌊q⌋
  let r := q - f
  if r < 1 / 2 then f
  else if 1 / 2 < r then f + 1
  else if f % 2 = 0 then f else f + 1

/-- `emotion_scores.get(c, 0)` over the ordered score map. -/
def getScore (scores : List (String × ℚ)) (c : String) : ℚ :=
  match scores.lookup c with
  | some s => s
  | none => 0

/-- One category's raw configuration mapping (`weight` defaulted to 1.0,
missing keys defaulted to empty lists, as `config_data.get` does). -/
structure CatConfig where
  weight : ℚ := 1
  words : List String := []
  phrases : List String := []
  patterns : List String := []

/-- Raw JSON value of one category: either a proper mapping or a non-mapping
value (the source's example is a JSON list), which the scorer must skip. -/
inductive RawData
  | list
  | dict (c : CatConfig)

/-- `_compile_patterns` for one category: each regex string either compiles to
a `findall`-count function or is skipped (`re.error`). -/
def compile_patterns (compile : String → Option (String → Nat))
    (pats : List String) : List (String → Nat) :=
  pats.filterMap compile

/-- `_analyze_category` (lines 163-194): weighted word / phrase / regex score,
0 for a non-mapping category. -/
def analyze_category (compile : String → Option (String → Nat))
    (text : String) : RawData → ℚ
  | .list => 0
  | .dict c =>
    let s1 := c.words.foldl
      (fun s w => if inLowLow w text then s + c.weight else s) 0
    let s2 := c.phrases.foldl
      (fun s ph => if inLowLow ph text then s + c.weight * 1.2 else s) s1
    (compile_patterns compile c.patterns).foldl
      (fun s m => s + (m text : ℚ) * c.weight * 0.8) s2

/-- The category-scoring loop of `analyze_single_segment` (lines 99-105):
score every configured category, keep those with score > 0, in configuration
order.  `detected_patterns` is the same list's first components. -/
def emotion_scores_of (compile : String → Option (String → Nat))
    (cfg : List (String × RawData)) (text : String) : List (String × ℚ) :=
  cfg.foldl
    (fun acc p =>
      let s := analyze_category compile text p.2
      if 0 < s then acc ++ [(p.1, s)] else acc) []

/-- The built-in fallback ruleset installed when no config file loads
(lines 43-49). -/
def fallbackConfig : List (String × RawData) :=
  [("humor_indicators", .dict { words := ["חח", "מצחיק"] }),
   ("agreement_indicators", .dict { words := ["כן", "נכון"] }),
   ("disagreement_indicators", .dict { words := ["לא", "אבל"] })]

/-- A regex compiler with no compilable patterns (the fallback config has no
`patterns` entries, so concrete evaluations never consult it). -/
def compileNone : String → Option (String → Nat) := fun _ => none

/-- The fixed category → emotion-label table of
`_map_categories_to_emotions` (lines 201-223). -/
def emotionMapping : List (String × String) :=
  [("humor_indicators", "שעשוע"),
   ("happiness_indicators", "שמחה"),
   ("joy_indicators", "שמחה"),
   ("sadness_indicators", "עצב"),
   ("anger_indicators", "כעס"),
   ("fear_indicators", "פחד"),
   ("surprise_indicators", "הפתעה"),
   ("curiosity_indicators", "סקרנות"),
   ("disgust_indicators", "גועל"),
   ("frustration_indicators", "תסכול"),
   ("excitement_indicators", "התרגשות"),
   ("love_indicators", "אהבה"),
   ("anxiety_indicators", "חרדה"),
   ("hope_indicators", "תקווה"),
   ("pride_indicators", "גאווה"),
   ("admiration_indicators", "הערצה"),
   ("amusement_indicators", "שעשוע"),
   ("annoyance_indicators", "עצבנות"),
   ("approval_indicators", "אישור"),
   ("awe_indicators", "יראת כבוד"),
   ("caring_indicators", "דאגה")]

/-- Insert into a descending-sorted list, after all entries with a score
`≥` the new one (so earlier entries precede equal-scored later ones). -/
def insertDesc (x : String × ℚ) : List (String × ℚ) → List (String × ℚ)
  | [] => [x]
  | y :: ys => if y.2 ≤ x.2 then x :: y :: ys else y :: insertDesc x ys

/-- Python `sorted(scores.items(), key=score, reverse=True)`: a stable
descending sort of the insertion-ordered score map (line 226). -/
def sortDesc : List (String × ℚ) → List (String × ℚ)
  | [] => []
  | x :: xs => insertDesc x (sortDesc xs)

/-- The body of the selection loop of `_map_categories_to_emotions`
(lines 228-233): keep the label of a category scoring above 0.5 unless it is
already present. -/
def selectStep (acc : List String) (p : String × ℚ) : List String :=
  if 0.5 < p.2 then
    match emotionMapping.lookup p.1 with
    | some e => if e ∈ acc then acc else acc ++ [e]
    | none => acc
  else acc

/-- One special-case override of `_map_categories_to_emotions`
(lines 236-242): append `label` when `key` scored above 1.0 and the label is
not yet present. -/
def applyOverride (scores : List (String × ℚ)) (key label : String)
    (emotions : List String) : List String :=
  match scores.lookup key with
  | some s =>
    if 1 < s then (if label ∈ emotions then emotions else emotions ++ [label])
    else emotions
  | none => emotions

/-- `_map_categories_to_emotions` (lines 196-244): walk the stably sorted
scores, keep labels of categories scoring above 0.5, dropping duplicates;
append the agreement / disagreement overrides; truncate to 3. -/
def map_categories_to_emotions (scores : List (String × ℚ)) : List String :=
  let emotions := (sortDesc scores).foldl selectStep []
  let emotions := applyOverride scores "agreement_indicators" "אישור" emotions
  let emotions := applyOverride scores "disagreement_indicators" "עצבנות" emotions
  emotions.take 3

/-- `_calculate_blur` (lines 246-263). -/
def calculate_blur (scores : List (String × ℚ)) (text : String) : ℤ :=
  let s0 := getScore scores "blur_indicators"
  let s1 := ["אמ...", "אה...", "לא הבנתי", "מה?", "הא?"].foldl
    (fun s p => s + (cntRaw p text : ℚ) * 1.5) s0
  let s2 := s1 + (cntRaw "אממ" text : ℚ) * 1.0 + (cntRaw "אההה" text : ℚ) * 1.0
  let s3 := s2 + (cntRaw "??" text : ℚ) * 0.8 + (cntRaw "???" text : ℚ) * 1.0
  min 12 (pyTrunc s3)

/-- `_calculate_shine` (lines 265-290). -/
def calculate_shine (scores : List (String × ℚ)) (text : String) : ℤ :=
  let s1 := ["חשוב", "משמעותי", "מכריע", "הכרזה", "החלטה", "הודעה"].foldl
    (fun s w => if inLow w text then s + 2.0 else s) (0 : ℚ)
  let s2 := ["pride_indicators", "admiration_indicators", "excitement_indicators"].foldl
    (fun s e => s + getScore scores e * 0.6) s1
  let s3 := s2 + (cntRaw "!!" text : ℚ) * 0.8 + (cntRaw "!!!" text : ℚ) * 1.2
  let s4 := ["הצלחתי", "ניצחתי", "השגתי", "גאה"].foldl
    (fun s w => if inLow w text then s + 1.5 else s) s3
  min 10 (pyTrunc s4)

/-- The strong-humor literal list of `_calculate_humor` (line 297). -/
def strongHumorWords : List String := ["מצחיק", "קורע", "בדיחה", "קומדיה", "צחקתי"]

/-- The humor base score of `_calculate_humor` (lines 296-304): strong-humor
literals plus laughter-run counts, before any category contribution. -/
def humorBase (text : String) : ℚ :=
  let s1 := strongHumorWords.foldl
    (fun s w => if inLow w text then s + 1.5 else s) (0 : ℚ)
  s1 + (cntLow "חחח" text : ℚ) * 1.0 + (cntLow "חחחח" text : ℚ) * 1.5

/-- `_calculate_humor` (lines 292-311): category scores contribute only when
the base literal / laughter score is already positive. -/
def calculate_humor (scores : List (String × ℚ)) (text : String) : ℤ :=
  let base := humorBase text
  let s := if 0 < base then
      base + getScore scores "humor_indicators" * 0.5
        + getScore scores "amusement_indicators" * 0.3
    else base
  min 10 (pyTrunc s)

/-- `_calculate_confidence` (lines 313-325). -/
def calculate_confidence (scores : List (String × ℚ)) (text : String) : ℚ :=
  if scores = [] then 0.3
  else
    let total := (scores.map Prod.snd).sum
    let wc := (wordsOf text.toList).length
    let normalized := total / max 1 ((wc : ℚ) * 0.1)
    min 1.0 (max 0.1 (normalized / 5.0))

/-- Tier-1 existential phrases of `_calculate_blobiness` (lines 332-336). -/
def existentialThemes : List String :=
  ["מה המשמעות", "למה אני כאן", "מה התכלית", "מה הנקודה", "איך זה יגמר",
   "מה קורה אחרי המוות", "יש אלוהים", "מה זה אושר", "מה זה אהבה אמיתית",
   "פילוסופיה", "משמעות החיים", "תכלית הקיום", "רוחניות עמוקה"]

/-- Tier-2 personal-struggle phrases (lines 339-343). -/
def personalStruggles : List String :=
  ["אני סובל", "כל כך קשה לי", "אני נשבר", "לא יכול יותר", "איבדתי הכל",
   "הכי קשה בחיים", "רוצה למות", "אין לי כוח", "הכל נגמר", "אין תקווה",
   "דיכאון", "חרדה קשה", "התמכרות", "בעיות משפחתיות קשות", "גירושים"]

/-- Tier-3 emotional-vulnerability phrases (lines 346-351). -/
def emotionalVulnerability : List String :=
  ["אני פחד", "לא בטוח בעצמי", "מה אני עושה עם החיים", "איך להתמודד",
   "מרגיש לבד", "אין לי מישהו", "קשה לי לבטוח", "פוחד מהעתיד",
   "לא יודע מה לעשות", "מבולבל מהחיים", "איך לבחור", "מה נכון",
   "בושה", "אשמה", "חרטה", "פחד מכישלון", "פחד מדחייה"]

/-- Tier-4 life-transition phrases (lines 354-358). -/
def lifeTransitions : List String :=
  ["נישואים", "הורות", "קריירה", "מעבר דירה", "שינוי גדול בחיים",
   "בחירת מקצוע", "צבא", "לימודים", "פרישה", "גיל מבוגר",
   "אובדן", "פרידה", "יציאה מהבית", "עצמאות", "אחריות"]

/-- Tier-5 relationship phrases (lines 361-365). -/
def relationshipDepth : List String :=
  ["אהבה עמוקה", "קשר רומנטי", "זוגיות", "ידידות אמיתית",
   "משפחה", "הורים", "ילדים", "אמון", "בגידה", "סליחה",
   "קרבה רגשית", "חיבור", "הבנה הדדית", "תמיכה", "דאגה"]

/-- Small-talk phrase list (lines 388-392). -/
def smallTalkPhrases : List String :=
  ["מה שלומך", "איך הולך", "מזג אוויר", "חם היום", "קר היום",
   "בוקר טוב", "לילה טוב", "שבת שלום", "איך היה", "מה חדש",
   "מה אכלת", "איך העבודה", "מה התוכניות", "כמה השעה"]

/-- `sum(w for phrase in l if phrase in text.lower())`: one fixed weight per
matching phrase. -/
def phraseHitScore (l : List String) (w : ℚ) (text : String) : ℚ :=
  (l.countP (fun ph => inLow ph text) : ℚ) * w

/-- The small-talk penalty of `_calculate_blobiness` (line 394). -/
def smallTalkPenalty (text : String) : ℚ := phraseHitScore smallTalkPhrases 3.0 text

/-- `_calculate_blobiness` (lines 327-423). -/
def calculate_blobiness (scores : List (String × ℚ)) (text : String)
    (emotions : List String) : ℤ :=
  let _ := scores
  let existential := phraseHitScore existentialThemes 3.0 text
  let struggle := phraseHitScore personalStruggles 2.5 text
  let vulnerability := phraseHitScore emotionalVulnerability 2.0 text
  let transition := phraseHitScore lifeTransitions 1.5 text
  let relationship := phraseHitScore relationshipDepth 1.2 text
  let intense := ["anger", "sadness", "fear", "grief", "anxiety", "love",
    "ecstasy", "despair"]
  let emotionalIntensity := (emotions.countP (fun e => e ∈ intense) : ℚ) * 2.0
  let cp1 : ℚ := if inRaw "..." text || inRaw "…" text then 1.0 else 0
  let cp2 : ℚ :=
    if 2 < ((wordsOf text.toList).filter (fun w => 8 < w.length)).length then 1.0 else 0
  let cp3 : ℚ := if 1 < cntRaw "?" text then 1.5 else 0
  let complexPatterns := cp1 + cp2 + cp3
  let penalty := smallTalkPenalty text
  let totalDepth := existential + struggle + vulnerability + transition
    + relationship + emotionalIntensity + complexPatterns
  let score : ℚ :=
    if 0 < penalty then max 1.0 (2.0 - penalty)
    else if 8.0 ≤ totalDepth then min 10.0 (7.0 + totalDepth * 0.3)
    else if 5.0 ≤ totalDepth then 5.0 + totalDepth * 0.4
    else if 2.0 ≤ totalDepth then 2.0 + totalDepth * 0.5
    else 1.0 + (emotions.length : ℚ) * 0.3
  min 10 (max 1 (pyRound score))

/-- Strong-agreement phrase list of `_calculate_proximity` (line 431). -/
def strongAgreementPhrases : List String :=
  ["מסכים", "בדיוק", "נכון מאוד", "אתה צודק", "את צודקת"]

/-- Strong-disagreement phrase list of `_calculate_proximity` (line 437). -/
def strongDisagreementPhrases : List String :=
  ["לא מסכים", "אתה טועה", "את טועה", "זה לא נכון", "ממש לא"]

/-- The agreement side of `_calculate_proximity` (lines 427-434): category
score plus +2.0 per strong-agreement phrase present. -/
def agreementSide (scores : List (String × ℚ)) (text : String) : ℚ :=
  getScore scores "agreement_indicators" + phraseHitScore strongAgreementPhrases 2.0 text

/-- The disagreement side of `_calculate_proximity` (lines 428-440). -/
def disagreementSide (scores : List (String × ℚ)) (text : String) : ℚ :=
  getScore scores "disagreement_indicators"
    + phraseHitScore strongDisagreementPhrases 2.0 text

/-- `net_agreement` of `_calculate_proximity` (line 443). -/
def netAgreement (scores : List (String × ℚ)) (text : String) : ℚ :=
  agreementSide scores text - disagreementSide scores text

/-- `_calculate_proximity` (lines 425-451). -/
def calculate_proximity (scores : List (String × ℚ)) (text : String) : String :=
  let net := netAgreement scores text
  if 2.0 ≤ net then "together"
  else if -0.5 ≤ net then "close"
  else "far away"

/-- Mutual-understanding phrase list of `calculate_auto_blob_spacing`
(lines 465-468). -/
def mutualUnderstandingPhrases : List String :=
  ["אני מבין", "אני מבינה", "הבנתי", "ברור לי", "אתה צודק", "את צודקת",
   "בדיוק", "נכון מאוד", "מסכים לחלוטין", "מסכימה לחלוטין"]

/-- Acceptance phrase list (lines 471-473). -/
def acceptancePhrases : List String :=
  ["אוקיי", "בסדר", "יפה", "טוב", "מעולה", "נהדר", "כן", "נכון"]

/-- General-conversation phrase list (lines 476-479). -/
def generalConversationPhrases : List String :=
  ["מה שלומך", "איך אתה", "איך את", "בוקר טוב", "שלום", "מה חדש",
   "איך הולך", "מה העניינים", "כמה זמן"]

/-- `calculate_auto_blob_spacing` (lines 453-503). -/
def calculate_auto_blob_spacing (scores : List (String × ℚ)) (text : String)
    (is_conversation_start : Bool) : String :=
  if is_conversation_start then "far away"
  else
    let agreement := getScore scores "agreement_indicators"
    let disagreement := getScore scores "disagreement_indicators"
    let approval := getScore scores "approval_indicators"
    let mutualCount := mutualUnderstandingPhrases.countP (fun ph => inLow ph text)
    let acceptanceCount := acceptancePhrases.countP (fun ph => inLow ph text)
    let generalCount := generalConversationPhrases.countP (fun ph => inLow ph text)
    let net := agreement - disagreement + approval
    if 1 ≤ mutualCount ∧ 1.5 ≤ net then "together"
    else if 1 ≤ acceptanceCount ∨ 0.5 ≤ net then "close"
    else if 1 ≤ generalCount ∨ net < -0.5 ∨ 0 < disagreement then "far away"
    else "close"

/-- The result dictionary of one analysis call.  Keys that the
empty-input early return omits are `Option`-valued (`none` = key absent). -/
structure AffectDescriptor where
  emotions : List String
  confidence : ℚ
  blur : ℤ
  shine : ℤ
  humor : ℤ
  voice_intensity : ℚ
  blobiness : Option ℤ
  proximity : Option String
  auto_blob_spacing : Option String
  analysis_method : String
  detected_patterns : List String
  raw_scores : Option (List (String × ℚ))
  deriving DecidableEq, Repr

/-- The canonical silence descriptor returned for empty or whitespace-only
input (lines 80-89). -/
def silenceDescriptor : AffectDescriptor where
  emotions := ["שתיקה"]
  confidence := 0.5
  blur := 0
  shine := 0
  humor := 0
  voice_intensity := 1.0
  blobiness := none
  proximity := none
  auto_blob_spacing := none
  analysis_method := "empty_text"
  detected_patterns := []
  raw_scores := none

/-- The fallback cascade of `analyze_single_segment` (lines 129-146), applied
to the stripped text when emotion selection produced nothing. -/
def forcedEmotions (text : String) : List String :=
  if inRaw "?" text then ["סקרנות"]
  else if inRaw "!" text then ["התרגשות"]
  else if text.toList.length < 10 then ["חיבה"]
  else ["שמחה"]

/-- Lines 91-161 of `analyze_single_segment`, given the already computed
score map and the stripped text: derived metrics, emotion forcing, assembly. -/
def assembleFromScores (scores : List (String × ℚ)) (text : String)
    (is_conversation_start : Bool) : AffectDescriptor :=
  let detected := scores.map Prod.fst
  let voiceIntensity : ℚ :=
    match scores.lookup "voice_intensity_indicators" with
    | some s => min 3.0 (1.0 + s)
    | none => 1.0
  let emotions0 := map_categories_to_emotions scores
  let blur := calculate_blur scores text
  let shine := calculate_shine scores text
  let humor := calculate_humor scores text
  let confidence := calculate_confidence scores text
  let blobiness := calculate_blobiness scores text emotions0
  let proximity := calculate_proximity scores text
  let autoSpacing := calculate_auto_blob_spacing scores text is_conversation_start
  let emotions := if emotions0 = [] then forcedEmotions text else emotions0
  { emotions := emotions
    confidence := confidence
    blur := blur
    shine := shine
    humor := humor
    voice_intensity := voiceIntensity
    blobiness := some blobiness
    proximity := some proximity
    auto_blob_spacing := some autoSpacing
    analysis_method := "hebrew_patterns"
    detected_patterns := detected
    raw_scores := some scores }

/-- `HebrewEmotionAnalyzer.analyze_single_segment` (lines 67-161).
`use_fast_mode` is accepted and ignored, as in the source. -/
def analyze_single_segment (compile : String → Option (String → Nat))
    (cfg : List (String × RawData)) (transcript : String)
    (use_fast_mode : Bool) (is_conversation_start : Bool) : AffectDescriptor :=
  let _ := use_fast_mode
  if pyStrip transcript = "" then silenceDescriptor
  else
    assembleFromScores
      (emotion_scores_of compile cfg (pyStrip transcript))
      (pyStrip transcript) is_conversation_start

/-- The module-level public wrapper (lines 515-520): it accepts
`is_conversation_start` but forwards only `use_fast_mode`, so the method runs
with its default `is_conversation_start = False`. -/
def analyze_single_segment_module (compile : String → Option (String → Nat))
    (cfg : List (String × RawData)) (transcript : String)
    (use_fast_mode : Bool) (is_conversation_start : Bool) : AffectDescriptor :=
  let _ := is_conversation_start
  analyze_single_segment compile cfg transcript use_fast_mode false

/-! ### Basic lemmas about the string model -/

lemma startsWith_append {n l : List Char} (s : List Char)
    (h : startsWith n l = true) : startsWith n (l ++ s) = true := by
  induction n generalizing l with
  | nil => simp [startsWith]
  | cons a as ih =>
    cases l with
    | nil => simp [startsWith] at h
    | cons b bs =>
      simp only [startsWith, Bool.and_eq_true] at h
      simp only [List.cons_append, startsWith, Bool.and_eq_true]
      exact ⟨h.1, ih h.2⟩

lemma occursIn_nil_left (l : List Char) : occursIn [] l = true := by
  cases l <;> simp [occursIn, startsWith]

lemma occursIn_append_of {n l : List Char} (s : List Char)
    (h : occursIn n l = true) : occursIn n (l ++ s) = true := by
  induction l with
  | nil =>
    simp only [occursIn, List.isEmpty_iff] at h
    subst h
    simpa using occursIn_nil_left s
  | cons c rest ih =>
    simp only [occursIn, Bool.or_eq_true] at h
    rcases h with h | h
    · have := startsWith_append (n := n) (l := c :: rest) s h
      simp only [List.cons_append, occursIn, Bool.or_eq_true]
      exact Or.inl (by simpa using this)
    · simp only [List.cons_append, occursIn, Bool.or_eq_true]
      exact Or.inr (ih h)

lemma startsWith_of_startsWith_append {n m l : List Char}
    (h : startsWith (n ++ m) l = true) : startsWith n l = true := by
  induction n generalizing l with
  | nil => simp [startsWith]
  | cons a as ih =>
    cases l with
    | nil => simp [startsWith] at h
    | cons b bs =>
      simp only [List.cons_append, startsWith, Bool.and_eq_true] at h
      simp only [startsWith, Bool.and_eq_true]
      exact ⟨h.1, ih h.2⟩

lemma occursIn_of_occursIn_append {n m l : List Char}
    (h : occursIn (n ++ m) l = true) : occursIn n l = true := by
  induction l with
  | nil =>
    simp only [occursIn, List.isEmpty_iff, List.append_eq_nil] at h
    simp [occursIn, h.1]
  | cons c rest ih =>
    simp only [occursIn, Bool.or_eq_true] at h ⊢
    rcases h with h | h
    · exact Or.inl (startsWith_of_startsWith_append h)
    · exact Or.inr (ih h)

lemma countOccsAux_eq_zero {n : List Char} :
    ∀ {l : List Char} (skip : Nat), occursIn n l = false → countOccsAux n l skip = 0 := by
  intro l
  induction l with
  | nil => intro skip _; simp [countOccsAux]
  | cons c rest ih =>
    intro skip h
    simp only [occursIn, Bool.or_eq_false_iff] at h
    rw [countOccsAux]
    by_cases hs : 0 < skip
    · rw [if_pos hs]
      exact ih _ h.2
    · rw [if_neg hs, if_neg (by simp [h.1])]
      exact ih 0 h.2

lemma countOccs_eq_zero {n l : List Char}
    (h : occursIn n l = false) : countOccs n l = 0 :=
  countOccsAux_eq_zero 0 h

lemma toList_append (a b : String) : (a ++ b).toList = a.toList ++ b.toList := by
  cases a
  cases b
  rfl

lemma lowerL_append (a b : List Char) :
    lowerL (a ++ b) = lowerL a ++ lowerL b := List.map_append Char.toLower a b

lemma inLow_append {ph a : String} (b : String)
    (h : inLow ph a = true) : inLow ph (a ++ b) = true := by
  unfold inLow at h ⊢
  rw [toList_append, lowerL_append]
  exact occursIn_append_of _ h

lemma inLowLow_append {ph a : String} (b : String)
    (h : inLowLow ph a = true) : inLowLow ph (a ++ b) = true := by
  unfold inLowLow at h ⊢
  rw [toList_append, lowerL_append]
  exact occursIn_append_of _ h

lemma lookup_mem {β : Type} {l : List (String × β)} {k : String} {v : β}
    (h : l.lookup k = some v) : (k, v) ∈ l := by
  induction l with
  | nil => simp [List.lookup] at h
  | cons p rest ih =>
    obtain ⟨a, b⟩ := p
    rw [List.lookup] at h
    cases hk : (k == a) with
    | true =>
      rw [hk] at h
      have hka : k = a := by simpa using hk
      subst hka
      have hbv : b = v := by simpa using h
      simp [hbv]
    | false =>
      rw [hk] at h
      exact List.mem_cons_of_mem _ (ih h)

/-! ### Fold evaluation lemmas -/

lemma foldl_if_add {α : Type} (p : α → Bool) (w : ℚ) :
    ∀ (l : List α) (init : ℚ),
      l.foldl (fun s a => if p a then s + w else s) init
        = init + w * l.countP p := by
  intro l
  induction l with
  | nil => intro init; simp
  | cons a l ih =>
    intro init
    by_cases h : p a
    · rw [List.foldl_cons, if_pos h, ih, List.countP_cons, if_pos h]
      push_cast
      ring
    · rw [List.foldl_cons, if_neg h, ih, List.countP_cons, if_neg h]
      push_cast
      ring

lemma foldl_add_map {α : Type} (f : α → ℚ) :
    ∀ (l : List α) (init : ℚ),
      l.foldl (fun s a => s + f a) init = init + (l.map f).sum := by
  intro l
  induction l with
  | nil => intro init; simp
  | cons a l ih =>
    intro init
    rw [List.foldl_cons, ih, List.map_cons, List.sum_cons]
    ring

/-- Every score retained by the category loop is strictly positive. -/
lemma emotion_scores_pos {compile : String → Option (String → Nat)}
    {cfg : List (String × RawData)} {text : String} {c : String} {s : ℚ}
    (h : (c, s) ∈ emotion_scores_of compile cfg text) : 0 < s := by
  unfold emotion_scores_of at h
  suffices H : ∀ (l : List (String × RawData)) (acc : List (String × ℚ)),
      (∀ q ∈ acc, 0 < q.2) →
      (c, s) ∈ l.foldl (fun acc p =>
        let t := analyze_category compile text p.2
        if 0 < t then acc ++ [(p.1, t)] else acc) acc → 0 < s by
    exact H cfg [] (by simp) h
  intro l
  induction l with
  | nil =>
    intro acc hacc hmem
    exact hacc _ hmem
  | cons p l ih =>
    intro acc hacc hmem
    rw [List.foldl_cons] at hmem
    by_cases hp : 0 < analyze_category compile text p.2
    · refine ih _ ?_ (by simpa [hp] using hmem)
      intro q hq
      rcases List.mem_append.mp hq with hq | hq
      · exact hacc _ hq
      · simpa using (List.mem_singleton.mp hq ▸ hp)
    · exact ih _ hacc (by simpa [hp] using hmem)

/-- `emotion_scores.get(c, 0)` is non-negative on pipeline score maps. -/
lemma getScore_nonneg {compile : String → Option (String → Nat)}
    {cfg : List (String × RawData)} {text : String} (c : String) :
    0 ≤ getScore (emotion_scores_of compile cfg text) c := by
  unfold getScore
  cases h : (emotion_scores_of compile cfg text).lookup c with
  | none => simp
  | some s => exact le_of_lt (emotion_scores_pos (lookup_mem h))

/-! ### Projections of the assembled descriptor -/

lemma analyze_eq_assemble {compile : String → Option (String → Nat)}
    {cfg : List (String × RawData)} {transcript : String}
    {fast start : Bool} (h : pyStrip transcript ≠ "") :
    analyze_single_segment compile cfg transcript fast start =
      assembleFromScores (emotion_scores_of compile cfg (pyStrip transcript))
        (pyStrip transcript) start := by
  unfold analyze_single_segment
  exact if_neg h

lemma assemble_emotions (scores : List (String × ℚ)) (text : String) (start : Bool) :
    (assembleFromScores scores text start).emotions =
      (if map_categories_to_emotions scores = [] then forcedEmotions text
       else map_categories_to_emotions scores) := rfl

lemma assemble_blur (scores : List (String × ℚ)) (text : String) (start : Bool) :
    (assembleFromScores scores text start).blur = calculate_blur scores text := rfl

lemma assemble_shine (scores : List (String × ℚ)) (text : String) (start : Bool) :
    (assembleFromScores scores text start).shine = calculate_shine scores text := rfl

lemma assemble_humor (scores : List (String × ℚ)) (text : String) (start : Bool) :
    (assembleFromScores scores text start).humor = calculate_humor scores text := rfl

lemma assemble_blobiness (scores : List (String × ℚ)) (text : String) (start : Bool) :
    (assembleFromScores scores text start).blobiness =
      some (calculate_blobiness scores text (map_categories_to_emotions scores)) := rfl

lemma assemble_auto (scores : List (String × ℚ)) (text : String) (start : Bool) :
    (assembleFromScores scores text start).auto_blob_spacing =
      some (calculate_auto_blob_spacing scores text start) := rfl

/-! ### Claim C2 -/

/-- Claim C2: every empty or whitespace-only input takes the early return and
yields exactly the canonical silence descriptor (emotions = [silence],
confidence 0.5, blur = shine = humor = 0, voice intensity 1.0, no derived
metrics computed). -/
theorem C2_empty_input_silence (compile : String → Option (String → Nat))
    (cfg : List (String × RawData)) (transcript : String) (fast start : Bool)
    (h : pyStrip transcript = "") :
    analyze_single_segment compile cfg transcript fast start = silenceDescriptor := by
  unfold analyze_single_segment
  exact if_pos h

/-- Witness for C2 at the whitespace-only input `"   "`. -/
theorem C2_empty_input_silence_witness :
    pyStrip "   " = "" ∧
      analyze_single_segment compileNone fallbackConfig "   " true false
        = silenceDescriptor :=
  ⟨by decide, C2_empty_input_silence compileNone fallbackConfig "   " true false (by decide)⟩

/-! ### Claim C1 -/

/-- All labels the engine can ever emit through the category table and the
two overrides. -/
def allowedLabels : List String := emotionMapping.map Prod.snd ++ ["אישור", "עצבנות"]

lemma selectStep_fold_allowed (l : List (String × ℚ)) :
    ∀ acc : List String, (∀ e ∈ acc, e ∈ allowedLabels) →
      ∀ e ∈ l.foldl selectStep acc, e ∈ allowedLabels := by
  induction l with
  | nil => intro acc hacc e he; exact hacc e he
  | cons p l ih =>
    intro acc hacc e he
    rw [List.foldl_cons] at he
    refine ih _ ?_ e he
    intro x hx
    unfold selectStep at hx
    by_cases hp : 0.5 < p.2
    · rw [if_pos hp] at hx
      cases hlk : emotionMapping.lookup p.1 with
      | some lab =>
        simp only [hlk] at hx
        by_cases hmem : lab ∈ acc
        · exact hacc x (by rwa [if_pos hmem] at hx)
        · rw [if_neg hmem] at hx
          rcases List.mem_append.mp hx with hx | hx
          · exact hacc x hx
          · have hx' : x = lab := List.mem_singleton.mp hx
            subst hx'
            exact List.mem_append.mpr
              (Or.inl (List.mem_map.mpr ⟨(p.1, x), lookup_mem hlk, rfl⟩))
      | none =>
        simp only [hlk] at hx
        exact hacc x hx
    · exact hacc x (by rwa [if_neg hp] at hx)

lemma mem_applyOverride {scores : List (String × ℚ)} {key label : String}
    {emotions : List String} {e : String}
    (h : e ∈ applyOverride scores key label emotions) : e ∈ emotions ∨ e = label := by
  unfold applyOverride at h
  cases hlk : scores.lookup key with
  | some s =>
    simp only [hlk] at h
    by_cases hs : 1 < s
    · rw [if_pos hs] at h
      by_cases hmem : label ∈ emotions
      · exact Or.inl (by rwa [if_pos hmem] at h)
      · rw [if_neg hmem] at h
        rcases List.mem_append.mp h with h | h
        · exact Or.inl h
        · exact Or.inr (List.mem_singleton.mp h)
    · exact Or.inl (by rwa [if_neg hs] at h)
  | none =>
    simp only [hlk] at h
    exact Or.inl h

/-- Every member of the selected emotion list comes from the fixed tables. -/
lemma map_categories_allowed (scores : List (String × ℚ)) :
    ∀ e ∈ map_categories_to_emotions scores, e ∈ allowedLabels := by
  intro e he
  unfold map_categories_to_emotions at he
  have he' := List.mem_of_mem_take he
  rcases mem_applyOverride he' with he'' | he''
  · rcases mem_applyOverride he'' with h3 | h3
    · exact selectStep_fold_allowed _ [] (by simp) e h3
    · subst h3; decide
  · subst he''; decide

/-- Claim C1: the emotion list of every returned descriptor is non-empty, has
at most 3 labels, never contains the placeholder "neutral", and when the
category-based selection yields nothing on non-blank input it is exactly the
one-label fallback cascade: "?" → curiosity, else "!" → excitement, else
length < 10 → affection, else happiness. -/
theorem C1_emotions_never_neutral (compile : String → Option (String → Nat))
    (cfg : List (String × RawData)) (transcript : String) (fast start : Bool) :
    (analyze_single_segment compile cfg transcript fast start).emotions ≠ []
    ∧ (analyze_single_segment compile cfg transcript fast start).emotions.length ≤ 3
    ∧ "neutral" ∉ (analyze_single_segment compile cfg transcript fast start).emotions
    ∧ (pyStrip transcript ≠ "" →
        map_categories_to_emotions
          (emotion_scores_of compile cfg (pyStrip transcript)) = [] →
        (analyze_single_segment compile cfg transcript fast start).emotions =
          (if inRaw "?" (pyStrip transcript) then ["סקרנות"]
           else if inRaw "!" (pyStrip transcript) then ["התרגשות"]
           else if (pyStrip transcript).toList.length < 10 then ["חיבה"]
           else ["שמחה"])) := by
  by_cases hstrip : pyStrip transcript = ""
  · rw [C2_empty_input_silence compile cfg transcript fast start hstrip]
    refine ⟨by decide, by decide, by decide, fun h => absurd hstrip h⟩
  · rw [analyze_eq_assemble hstrip, assemble_emotions]
    set scores := emotion_scores_of compile cfg (pyStrip transcript) with hscores
    by_cases hsel : map_categories_to_emotions scores = []
    · rw [if_pos hsel]
      unfold forcedEmotions
      refine ⟨?_, ?_, ?_, fun _ _ => rfl⟩
      · split_ifs <;> simp
      · split_ifs <;> simp
      · split_ifs <;> decide
    · rw [if_neg hsel]
      refine ⟨hsel, ?_, ?_, fun _ h => absurd h hsel⟩
      · unfold map_categories_to_emotions
        exact List.length_take_le 3 _
      · intro hneutral
        have := map_categories_allowed scores "neutral" hneutral
        revert this
        decide

/-- Witness for C1: on the unmatched text "abc?" the fallback cascade fires
and yields exactly the curiosity label. -/
theorem C1_emotions_never_neutral_witness :
    pyStrip "abc?" ≠ ""
    ∧ map_categories_to_emotions
        (emotion_scores_of compileNone fallbackConfig (pyStrip "abc?")) = []
    ∧ (analyze_single_segment compileNone fallbackConfig "abc?" true false).emotions
        = ["סקרנות"] := by
  refine ⟨by decide, by decide, ?_⟩
  have h := (C1_emotions_never_neutral compileNone fallbackConfig "abc?" true false).2.2.2
    (by decide) (by decide)
  rw [h]
  decide

/-! ### Claim C3 -/

lemma pyTrunc_nonneg {q : ℚ} (h : 0 ≤ q) : 0 ≤ pyTrunc q := by
  unfold pyTrunc
  rw [if_pos h]
  exact Int.floor_nonneg.mpr h

lemma calculate_blur_range (scores : List (String × ℚ)) (text : String)
    (h0 : 0 ≤ getScore scores "blur_indicators") :
    0 ≤ calculate_blur scores text ∧ calculate_blur scores text ≤ 12 := by
  unfold calculate_blur
  dsimp only
  simp only [List.foldl_cons, List.foldl_nil]
  refine ⟨le_min (by norm_num) (pyTrunc_nonneg ?_), min_le_left _ _⟩
  repeat' apply add_nonneg
  all_goals first | exact h0 | positivity

lemma foldl_if_add_nonneg {α : Type} (p : α → Bool) (w : ℚ) (hw : 0 ≤ w)
    (l : List α) (init : ℚ) (h : 0 ≤ init) :
    0 ≤ l.foldl (fun s a => if p a then s + w else s) init := by
  rw [foldl_if_add p w]
  have hc : (0 : ℚ) ≤ w * l.countP p := mul_nonneg hw (by positivity)
  linarith

lemma foldl_add_getScore_nonneg (scores : List (String × ℚ))
    (hpos : ∀ c, 0 ≤ getScore scores c) (w : ℚ) (hw : 0 ≤ w)
    (l : List String) (init : ℚ) (h : 0 ≤ init) :
    0 ≤ l.foldl (fun s e => s + getScore scores e * w) init := by
  rw [foldl_add_map (fun e => getScore scores e * w)]
  have hs : 0 ≤ (l.map fun e => getScore scores e * w).sum := by
    apply List.sum_nonneg
    intro x hx
    obtain ⟨c, -, rfl⟩ := List.mem_map.mp hx
    exact mul_nonneg (hpos c) hw
  linarith

lemma calculate_shine_range (scores : List (String × ℚ)) (text : String)
    (hpos : ∀ c, 0 ≤ getScore scores c) :
    0 ≤ calculate_shine scores text ∧ calculate_shine scores text ≤ 10 := by
  unfold calculate_shine
  dsimp only
  refine ⟨le_min (by norm_num) (pyTrunc_nonneg ?_), min_le_left _ _⟩
  apply foldl_if_add_nonneg _ _ (by norm_num)
  apply add_nonneg
  apply add_nonneg
  · apply foldl_add_getScore_nonneg scores hpos _ (by norm_num)
    apply foldl_if_add_nonneg _ _ (by norm_num)
    norm_num
  · positivity
  · positivity

lemma humorBase_nonneg (text : String) : 0 ≤ humorBase text := by
  unfold humorBase
  dsimp only
  apply add_nonneg
  apply add_nonneg
  · exact foldl_if_add_nonneg _ _ (by norm_num) _ _ le_rfl
  · positivity
  · positivity

lemma calculate_humor_range (scores : List (String × ℚ)) (text : String)
    (hpos : ∀ c, 0 ≤ getScore scores c) :
    0 ≤ calculate_humor scores text ∧ calculate_humor scores text ≤ 10 := by
  unfold calculate_humor
  dsimp only
  refine ⟨le_min (by norm_num) (pyTrunc_nonneg ?_), min_le_left _ _⟩
  split_ifs with h
  · have hb := humorBase_nonneg text
    have h1 := mul_nonneg (hpos "humor_indicators") (by norm_num : (0:ℚ) ≤ 0.5)
    have h2 := mul_nonneg (hpos "amusement_indicators") (by norm_num : (0:ℚ) ≤ 0.3)
    linarith
  · exact humorBase_nonneg text

lemma calculate_blobiness_range (scores : List (String × ℚ)) (text : String)
    (emotions : List String) :
    1 ≤ calculate_blobiness scores text emotions
      ∧ calculate_blobiness scores text emotions ≤ 10 := by
  unfold calculate_blobiness
  dsimp only
  exact ⟨le_min (by norm_num) (le_max_left _ _), min_le_left _ _⟩

/-- Counterexample to C3 as stated: on the empty input the early return omits
the `blobiness` key entirely, so no in-range blobiness value is present. -/
theorem C3_counterexample :
    ¬ ∀ transcript : String, ∃ b : ℤ,
        (analyze_single_segment compileNone fallbackConfig transcript true false).blobiness
            = some b
          ∧ 1 ≤ b ∧ b ≤ 10 := by
  intro h
  obtain ⟨b, hb, -, -⟩ := h ""
  have hnone :
      (analyze_single_segment compileNone fallbackConfig "" true false).blobiness
        = none := rfl
  rw [hnone] at hb
  exact Option.noConfusion hb

/-- Claim C3 (amended): blur ∈ [0,12], shine ∈ [0,10] and humor ∈ [0,10] hold
for all inputs; blobiness is present and in [1,10] exactly for inputs that
are not empty or whitespace-only, and absent on the silence early return. -/
theorem C3_amended_field_ranges (compile : String → Option (String → Nat))
    (cfg : List (String × RawData)) (transcript : String) (fast start : Bool) :
    (0 ≤ (analyze_single_segment compile cfg transcript fast start).blur
      ∧ (analyze_single_segment compile cfg transcript fast start).blur ≤ 12)
    ∧ (0 ≤ (analyze_single_segment compile cfg transcript fast start).shine
      ∧ (analyze_single_segment compile cfg transcript fast start).shine ≤ 10)
    ∧ (0 ≤ (analyze_single_segment compile cfg transcript fast start).humor
      ∧ (analyze_single_segment compile cfg transcript fast start).humor ≤ 10)
    ∧ (pyStrip transcript ≠ "" → ∃ b : ℤ,
        (analyze_single_segment compile cfg transcript fast start).blobiness = some b
          ∧ 1 ≤ b ∧ b ≤ 10)
    ∧ (pyStrip transcript = "" →
        (analyze_single_segment compile cfg transcript fast start).blobiness = none) := by
  by_cases hstrip : pyStrip transcript = ""
  · rw [C2_empty_input_silence compile cfg transcript fast start hstrip]
    exact ⟨by decide, by decide, by decide,
      fun h => absurd hstrip h, fun _ => rfl⟩
  · rw [analyze_eq_assemble hstrip]
    have hpos : ∀ c, 0 ≤ getScore
        (emotion_scores_of compile cfg (pyStrip transcript)) c :=
      fun c => getScore_nonneg c
    rw [assemble_blur, assemble_shine, assemble_humor, assemble_blobiness]
    refine ⟨calculate_blur_range _ _ (hpos _), calculate_shine_range _ _ hpos,
      calculate_humor_range _ _ hpos, fun _ => ?_, fun h => absurd h hstrip⟩
    exact ⟨_, rfl, calculate_blobiness_range _ _ _⟩

/-- Witness for the amended C3 on the non-blank input "שלום". -/
theorem C3_amended_field_ranges_witness :
    pyStrip "שלום" ≠ ""
    ∧ ∃ b : ℤ,
        (analyze_single_segment compileNone fallbackConfig "שלום" true false).blobiness
            = some b
          ∧ 1 ≤ b ∧ b ≤ 10 :=
  ⟨by decide,
    (C3_amended_field_ranges compileNone fallbackConfig "שלום" true false).2.2.2.1
      (by decide)⟩

/-! ### Claim C7 -/

/-- Claim C7: whenever any small-talk phrase matches (penalty > 0), the
small-talk penalty overrides the whole thematic depth computation and the
returned blobiness is at most `max(1, 2 - penalty)`, whatever the scores,
text and emotion list otherwise contain. -/
theorem C7_small_talk_penalty_override (scores : List (String × ℚ))
    (text : String) (emotions : List String)
    (h : 0 < smallTalkPenalty text) :
    ((calculate_blobiness scores text emotions : ℤ) : ℚ)
      ≤ max 1 (2 - smallTalkPenalty text) := by
  have hk1 : 1 ≤ smallTalkPhrases.countP (fun ph => inLow ph text) := by
    rcases Nat.eq_zero_or_pos (smallTalkPhrases.countP (fun ph => inLow ph text))
      with h0 | h1
    · unfold smallTalkPenalty phraseHitScore at h
      rw [h0] at h
      norm_num at h
    · exact h1
  have hp3 : 3 ≤ smallTalkPenalty text := by
    unfold smallTalkPenalty phraseHitScore
    have hc : (1:ℚ) ≤ (smallTalkPhrases.countP (fun ph => inLow ph text) : ℚ) := by
      exact_mod_cast hk1
    nlinarith
  unfold calculate_blobiness
  dsimp only
  rw [if_pos h]
  have hmax : max (1.0:ℚ) (2.0 - smallTalkPenalty text) = 1 := by
    rw [max_eq_left (by linarith : (2.0:ℚ) - smallTalkPenalty text ≤ 1.0)]
    norm_num
  rw [hmax]
  have hr : pyRound 1 = 1 := by
    unfold pyRound
    norm_num
  rw [hr]
  have hmin : min (10:ℤ) (max 1 1) = 1 := by norm_num
  rw [hmin]
  have h1 : (1:ℚ) ≤ max 1 (2 - smallTalkPenalty text) := le_max_left _ _
  exact_mod_cast h1

/-- Witness for C7: "מה שלומך ומה המשמעות של החיים" contains the small-talk
phrase "מה שלומך" next to an existential-theme phrase, and blobiness is still
forced down to the penalty bound. -/
theorem C7_small_talk_penalty_override_witness :
    0 < smallTalkPenalty "מה שלומך ומה המשמעות של החיים"
    ∧ ((calculate_blobiness [] "מה שלומך ומה המשמעות של החיים" [] : ℤ) : ℚ)
        ≤ max 1 (2 - smallTalkPenalty "מה שלומך ומה המשמעות של החיים") := by
  have hc : smallTalkPhrases.countP
      (fun ph => inLow ph "מה שלומך ומה המשמעות של החיים") = 1 := by decide
  have hp : 0 < smallTalkPenalty "מה שלומך ומה המשמעות של החיים" := by
    unfold smallTalkPenalty phraseHitScore
    rw [hc]
    norm_num
  exact ⟨hp, C7_small_talk_penalty_override [] _ [] hp⟩

/-! ### Claim C8 -/

/-- Claim C8: humor is 0 whenever no strong-humor literal and no run of 3+
laughter glyphs is present, regardless of category scores; when the base
literal score is positive, the humor- and amusement-category contributions
(0.5× and 0.3×) are added before clamping and flooring; and on
"חחח איזה מצחיק!" (literal plus laughter run both present) humor is
strictly positive. -/
theorem C8_humor_gating (scores : List (String × ℚ)) (text : String) :
    ((∀ w ∈ strongHumorWords, inLow w text = false) →
        inLow "חחח" text = false →
        calculate_humor scores text = 0)
    ∧ (0 < humorBase text →
        calculate_humor scores text =
          min 10 (pyTrunc (humorBase text
            + getScore scores "humor_indicators" * 0.5
            + getScore scores "amusement_indicators" * 0.3)))
    ∧ 0 < (analyze_single_segment compileNone fallbackConfig
            "חחח איזה מצחיק!" true false).humor := by
  refine ⟨?_, ?_, ?_⟩
  · intro hw hrun
    have hrun' : occursIn "חחח".toList (lowerL text.toList) = false := hrun
    have h3 : countOccs "חחח".toList (lowerL text.toList) = 0 :=
      countOccs_eq_zero hrun'
    have hrun4 : occursIn "חחחח".toList (lowerL text.toList) = false := by
      cases hx : occursIn "חחחח".toList (lowerL text.toList) with
      | false => rfl
      | true =>
        have hsplit : "חחחח".toList = "חחח".toList ++ "ח".toList := by decide
        rw [hsplit] at hx
        exact absurd (occursIn_of_occursIn_append hx) (by rw [hrun']; simp)
    have h4 : countOccs "חחחח".toList (lowerL text.toList) = 0 :=
      countOccs_eq_zero hrun4
    have hcount : strongHumorWords.countP (fun w => inLow w text) = 0 :=
      List.countP_eq_zero.mpr (fun w hwmem => by simp [hw w hwmem])
    have hb : humorBase text = 0 := by
      unfold humorBase
      dsimp only
      rw [foldl_if_add (fun w => inLow w text) 1.5, hcount]
      show (0:ℚ) + 1.5 * (0:ℕ) + (cntLow "חחח" text : ℚ) * 1.0
          + (cntLow "חחחח" text : ℚ) * 1.5 = 0
      unfold cntLow
      rw [h3, h4]
      norm_num
    unfold calculate_humor
    dsimp only
    rw [hb, if_neg (by norm_num)]
    unfold pyTrunc
    norm_num
  · intro h
    unfold calculate_humor
    dsimp only
    rw [if_pos h]
  · have hT : pyStrip "חחח איזה מצחיק!" = "חחח איזה מצחיק!" := by decide
    rw [analyze_eq_assemble (by rw [hT]; decide), assemble_humor, hT]
    have hscores : emotion_scores_of compileNone fallbackConfig "חחח איזה מצחיק!"
        = [("humor_indicators", 2)] := by
      have e1 : inLowLow "חח" "חחח איזה מצחיק!" = true := by decide
      have e2 : inLowLow "מצחיק" "חחח איזה מצחיק!" = true := by decide
      have e3 : inLowLow "כן" "חחח איזה מצחיק!" = false := by decide
      have e4 : inLowLow "נכון" "חחח איזה מצחיק!" = false := by decide
      have e5 : inLowLow "לא" "חחח איזה מצחיק!" = false := by decide
      have e6 : inLowLow "אבל" "חחח איזה מצחיק!" = false := by decide
      norm_num [emotion_scores_of, fallbackConfig, analyze_category,
        compile_patterns, List.foldl_cons, List.foldl_nil,
        e1, e2, e3, e4, e5, e6]
    rw [hscores]
    have w1 : inLow "מצחיק" "חחח איזה מצחיק!" = true := by decide
    have w2 : inLow "קורע" "חחח איזה מצחיק!" = false := by decide
    have w3 : inLow "בדיחה" "חחח איזה מצחיק!" = false := by decide
    have w4 : inLow "קומדיה" "חחח איזה מצחיק!" = false := by decide
    have w5 : inLow "צחקתי" "חחח איזה מצחיק!" = false := by decide
    have c1 : cntLow "חחח" "חחח איזה מצחיק!" = 1 := by decide
    have c2 : cntLow "חחחח" "חחח איזה מצחיק!" = 0 := by decide
    have hbase : humorBase "חחח איזה מצחיק!" = 2.5 := by
      norm_num [humorBase, strongHumorWords, List.foldl_cons, List.foldl_nil,
        w1, w2, w3, w4, w5, c1, c2]
    have hget1 : getScore [(("humor_indicators" : String), (2:ℚ))] "humor_indicators"
        = 2 := by
      norm_num [getScore, List.lookup]
    have hget2 : getScore [(("humor_indicators" : String), (2:ℚ))] "amusement_indicators"
        = 0 := by
      have k1 : (("amusement_indicators" : String) == "humor_indicators") = false := by
        decide
      norm_num [getScore, List.lookup, k1]
    unfold calculate_humor
    dsimp only
    rw [hbase, if_pos (by norm_num : (0:ℚ) < 2.5), hget1, hget2]
    have harg : (2.5:ℚ) + 2 * 0.5 + 0 * 0.3 = 3.5 := by norm_num
    rw [harg]
    have htr : pyTrunc 3.5 = 3 := by
      unfold pyTrunc
      rw [if_pos (by norm_num : (0:ℚ) ≤ 3.5)]
      norm_num
    rw [htr]
    norm_num

/-- Witness for C8: on "שלום" (no humor literal, no laughter run) humor is 0
even with a positive humor_indicators score present. -/
theorem C8_humor_gating_witness :
    (∀ w ∈ strongHumorWords, inLow w "שלום" = false)
    ∧ inLow "חחח" "שלום" = false
    ∧ calculate_humor [("humor_indicators", 5)] "שלום" = 0 :=
  ⟨by decide, by decide,
    (C8_humor_gating [("humor_indicators", 5)] "שלום").1 (by decide) (by decide)⟩

/-! ### Claim C6 -/

/-- Claim C6 fails on the code: the module-level public wrapper accepts the
"is conversation start" flag but never forwards it, so the flag has no effect
on any field of the public result.  The analyzer method itself does honor the
flag (far_away unconditionally); through the public wrapper the same call
yields "close" on the input "אוקיי". -/
theorem C6_wrapper_drops_start_flag :
    (∀ (compile : String → Option (String → Nat)) (cfg : List (String × RawData))
        (transcript : String) (fast start : Bool),
      analyze_single_segment_module compile cfg transcript fast start
        = analyze_single_segment compile cfg transcript fast false)
    ∧ (analyze_single_segment compileNone fallbackConfig "אוקיי" true true).auto_blob_spacing
        = some "far away"
    ∧ (analyze_single_segment_module compileNone fallbackConfig "אוקיי" true true).auto_blob_spacing
        = some "close" := by
  have hT : pyStrip "אוקיי" = "אוקיי" := by decide
  have hne : pyStrip "אוקיי" ≠ "" := by rw [hT]; decide
  have hsc : emotion_scores_of compileNone fallbackConfig "אוקיי" = [] := by decide
  refine ⟨fun _ _ _ _ _ => rfl, ?_, ?_⟩
  · rw [analyze_eq_assemble hne, assemble_auto, hT, hsc]
    rfl
  · show (analyze_single_segment compileNone fallbackConfig "אוקיי" true false).auto_blob_spacing
      = some "close"
    rw [analyze_eq_assemble hne, assemble_auto, hT, hsc]
    have ca : acceptancePhrases.countP (fun ph => inLow ph "אוקיי") = 1 := by decide
    have cm : mutualUnderstandingPhrases.countP (fun ph => inLow ph "אוקיי") = 0 := by
      decide
    norm_num [calculate_auto_blob_spacing, getScore, List.lookup, ca, cm]

/-! ### Claim C4 -/

lemma sum_map_mul_consts (l : List (String → Nat)) (text : String) (a : ℚ) :
    (l.map (fun m => (m text : ℚ) * a * 0.8)).sum
      = 0.8 * a * (l.map (fun m => ((m text) : ℚ))).sum := by
  induction l with
  | nil => simp
  | cons m l ih =>
    simp only [List.map_cons, List.sum_cons, ih]
    ring

/-- The score map membership characterization: exactly the configured
categories with strictly positive score appear, with that score. -/
lemma mem_emotion_scores_iff (compile : String → Option (String → Nat))
    (cfg : List (String × RawData)) (text : String) (cat : String) (s : ℚ) :
    (cat, s) ∈ emotion_scores_of compile cfg text ↔
      ∃ d, (cat, d) ∈ cfg ∧ analyze_category compile text d = s ∧ 0 < s := by
  unfold emotion_scores_of
  suffices H : ∀ (l : List (String × RawData)) (acc : List (String × ℚ)),
      (cat, s) ∈ l.foldl (fun acc p =>
          let t := analyze_category compile text p.2
          if 0 < t then acc ++ [(p.1, t)] else acc) acc ↔
        (cat, s) ∈ acc
        ∨ ∃ d, (cat, d) ∈ l ∧ analyze_category compile text d = s ∧ 0 < s by
    simpa using H cfg []
  intro l
  induction l with
  | nil => intro acc; simp
  | cons p l ih =>
    obtain ⟨p1, p2⟩ := p
    intro acc
    rw [List.foldl_cons]
    dsimp only
    by_cases hp : 0 < analyze_category compile text p2
    · rw [if_pos hp, ih]
      constructor
      · rintro (hmem | ⟨d, hd, ha, hs⟩)
        · rcases List.mem_append.mp hmem with hmem | hmem
          · exact Or.inl hmem
          · have h2 := List.mem_singleton.mp hmem
            rw [Prod.mk.injEq] at h2
            obtain ⟨hcat, hs⟩ := h2
            refine Or.inr ⟨p2, ?_, hs.symm, by rw [hs]; exact hp⟩
            rw [hcat]
            exact List.mem_cons_self _ _
        · exact Or.inr ⟨d, List.mem_cons_of_mem _ hd, ha, hs⟩
      · rintro (hmem | ⟨d, hd, ha, hs⟩)
        · exact Or.inl (List.mem_append.mpr (Or.inl hmem))
        · rcases List.mem_cons.mp hd with hd | hd
          · rw [Prod.mk.injEq] at hd
            obtain ⟨hcat, hdp⟩ := hd
            refine Or.inl (List.mem_append.mpr (Or.inr ?_))
            rw [List.mem_singleton, Prod.mk.injEq]
            exact ⟨hcat, by rw [← ha, hdp]⟩
          · exact Or.inr ⟨d, hd, ha, hs⟩
    · rw [if_neg hp, ih]
      constructor
      · rintro (hmem | ⟨d, hd, ha, hs⟩)
        · exact Or.inl hmem
        · exact Or.inr ⟨d, List.mem_cons_of_mem _ hd, ha, hs⟩
      · rintro (hmem | ⟨d, hd, ha, hs⟩)
        · exact Or.inl hmem
        · rcases List.mem_cons.mp hd with hd | hd
          · exfalso
            rw [Prod.mk.injEq] at hd
            obtain ⟨-, hdp⟩ := hd
            rw [hdp] at ha
            rw [ha] at hp
            exact hp hs
          · exact Or.inr ⟨d, hd, ha, hs⟩

/-- Claim C4: the category score is exactly
`w·#words + 1.2w·#phrases + 0.8w·Σ findall`, where word and phrase matches
are case-insensitive substring containment on the lowered text, and the
resulting score map holds exactly the categories scoring strictly above 0. -/
theorem C4_score_formula_and_map (compile : String → Option (String → Nat))
    (text : String) (c : CatConfig) (cfg : List (String × RawData))
    (cat : String) (s : ℚ) :
    analyze_category compile text (.dict c)
      = c.weight * (c.words.countP (fun w => inLowLow w text) : ℚ)
        + 1.2 * c.weight * (c.phrases.countP (fun ph => inLowLow ph text) : ℚ)
        + 0.8 * c.weight
          * ((compile_patterns compile c.patterns).map (fun m => ((m text) : ℚ))).sum
    ∧ ((cat, s) ∈ emotion_scores_of compile cfg text ↔
        ∃ d, (cat, d) ∈ cfg ∧ analyze_category compile text d = s ∧ 0 < s) := by
  constructor
  · unfold analyze_category
    dsimp only
    rw [foldl_if_add (fun w => inLowLow w text) c.weight,
      foldl_if_add (fun ph => inLowLow ph text) (c.weight * 1.2),
      foldl_add_map (fun m : String → Nat => ((m text : ℕ) : ℚ) * c.weight * 0.8),
      sum_map_mul_consts]
    ring
  · exact mem_emotion_scores_iff compile cfg text cat s

/-! ### Claim C5 -/

/-- Keep the first occurrence of every label, dropping later duplicates
(the claim's description of the de-duplication). -/
def dedupFirst : List String → List String
  | [] => []
  | x :: xs => x :: dedupFirst (xs.filter (fun y => y ≠ x))
termination_by l => l.length
decreasing_by
  simp only [List.length_cons]
  have h := List.length_filter_le (fun y => decide (y ≠ x)) xs
  omega

/-- The claim's description of step 2: the lookup-table images of the
categories scoring strictly above 0.5, in stable score-descending order. -/
def selectedLabels (scores : List (String × ℚ)) : List String :=
  ((sortDesc scores).filter (fun p => 0.5 < p.2)).filterMap
    (fun p => emotionMapping.lookup p.1)

/-- The claim's description of the whole selection: deduplicated ordered
labels, then the two overrides appended, then the first 3 labels. -/
def map_categories_spec (scores : List (String × ℚ)) : List String :=
  (applyOverride scores "disagreement_indicators" "עצבנות"
    (applyOverride scores "agreement_indicators" "אישור"
      (dedupFirst (selectedLabels scores)))).take 3

lemma selectStep_apply (acc : List String) (p : String × ℚ) :
    selectStep acc p =
      if 0.5 < p.2 then
        match emotionMapping.lookup p.1 with
        | some e => if e ∈ acc then acc else acc ++ [e]
        | none => acc
      else acc := rfl

lemma fold_select_eq (l : List (String × ℚ)) :
    ∀ acc : List String,
      l.foldl selectStep acc
        = acc ++ dedupFirst (((l.filter (fun p => 0.5 < p.2)).filterMap
            (fun p => emotionMapping.lookup p.1)).filter (fun e => e ∉ acc)) := by
  induction l with
  | nil => intro acc; simp [dedupFirst]
  | cons p l ih =>
    intro acc
    rw [List.foldl_cons, selectStep_apply]
    by_cases hp : 0.5 < p.2
    · rw [if_pos hp, List.filter_cons_of_pos (by simp [hp])]
      cases hlk : emotionMapping.lookup p.1 with
      | none =>
        simp only [hlk, List.filterMap_cons]
        exact ih acc
      | some e =>
        simp only [hlk, List.filterMap_cons]
        by_cases hmem : e ∈ acc
        · rw [if_pos hmem, List.filter_cons_of_neg (by simp [hmem])]
          exact ih acc
        · rw [if_neg hmem, List.filter_cons_of_pos (by simp [hmem]), ih]
          rw [dedupFirst]
          have hfilters :
              (((l.filter (fun p => 0.5 < p.2)).filterMap
                  (fun p => emotionMapping.lookup p.1)).filter
                    (fun x => x ∉ acc)).filter (fun y => y ≠ e)
                = ((l.filter (fun p => 0.5 < p.2)).filterMap
                    (fun p => emotionMapping.lookup p.1)).filter
                      (fun x => x ∉ acc ++ [e]) := by
            rw [List.filter_filter]
            apply List.filter_congr
            intro x _
            by_cases h1 : x = e <;> by_cases h2 : x ∈ acc <;>
              simp [h1, h2, List.mem_append]
          rw [hfilters]
          simp [List.append_assoc]
    · rw [if_neg hp, List.filter_cons_of_neg (by simp [hp])]
      exact ih acc

lemma mem_insertDesc {x y : String × ℚ} {l : List (String × ℚ)} :
    y ∈ insertDesc x l ↔ y = x ∨ y ∈ l := by
  induction l with
  | nil => simp [insertDesc]
  | cons z zs ih =>
    unfold insertDesc
    by_cases hc : z.2 ≤ x.2
    · rw [if_pos hc]
      simp
    · rw [if_neg hc]
      simp only [List.mem_cons, ih]
      tauto

lemma sorted_insertDesc (x : String × ℚ) (l : List (String × ℚ))
    (h : List.Sorted (fun a b : String × ℚ => b.2 ≤ a.2) l) :
    List.Sorted (fun a b : String × ℚ => b.2 ≤ a.2) (insertDesc x l) := by
  induction l with
  | nil => simp [insertDesc]
  | cons y ys ih =>
    rw [List.sorted_cons] at h
    unfold insertDesc
    by_cases hc : y.2 ≤ x.2
    · rw [if_pos hc]
      rw [List.sorted_cons]
      refine ⟨?_, List.sorted_cons.mpr h⟩
      intro z hz
      rcases List.mem_cons.mp hz with hz | hz
      · rw [hz]; exact hc
      · exact le_trans (h.1 z hz) hc
    · rw [if_neg hc]
      rw [List.sorted_cons]
      refine ⟨?_, ih h.2⟩
      intro z hz
      rcases mem_insertDesc.mp hz with hz | hz
      · rw [hz]; exact le_of_lt (lt_of_not_le hc)
      · exact h.1 z hz

lemma sorted_sortDesc (l : List (String × ℚ)) :
    List.Sorted (fun a b : String × ℚ => b.2 ≤ a.2) (sortDesc l) := by
  induction l with
  | nil => simp [sortDesc]
  | cons x xs ih => exact sorted_insertDesc x _ ih

lemma filter_insertDesc (x : String × ℚ) (l : List (String × ℚ)) (q : ℚ) :
    (insertDesc x l).filter (fun p => p.2 = q)
      = if x.2 = q then x :: l.filter (fun p => p.2 = q)
        else l.filter (fun p => p.2 = q) := by
  induction l with
  | nil =>
    unfold insertDesc
    by_cases hx : x.2 = q <;> simp [List.filter_cons, hx]
  | cons y ys ih =>
    unfold insertDesc
    by_cases hc : y.2 ≤ x.2
    · rw [if_pos hc]
      by_cases hx : x.2 = q <;> simp [List.filter_cons, hx]
    · rw [if_neg hc]
      by_cases hy : y.2 = q
      · have hx : ¬ x.2 = q := by
          intro hx
          rw [hx, ← hy] at hc
          exact hc le_rfl
        simp [List.filter_cons, hy, hx, ih]
      · simp [List.filter_cons, hy, ih]

lemma filter_sortDesc (l : List (String × ℚ)) (q : ℚ) :
    (sortDesc l).filter (fun p => p.2 = q) = l.filter (fun p => p.2 = q) := by
  induction l with
  | nil => simp [sortDesc]
  | cons x xs ih =>
    show (insertDesc x (sortDesc xs)).filter (fun p => p.2 = q) = _
    rw [filter_insertDesc, ih]
    by_cases hx : x.2 = q <;> simp [List.filter_cons, hx]

/-- Claim C5: the selected labels are exactly the table images of the
categories scoring above 0.5, in score-descending order with ties kept in the
score map's (configuration) order, deduplicated keeping the first occurrence;
the two overrides are appended afterwards without re-sorting and the result
is truncated to 3.  The sort used is descending and stable: entries of any
fixed score keep their original relative order. -/
theorem C5_selection_order_and_dedup (scores : List (String × ℚ)) :
    map_categories_to_emotions scores = map_categories_spec scores
    ∧ List.Sorted (fun a b : String × ℚ => b.2 ≤ a.2) (sortDesc scores)
    ∧ ∀ q : ℚ, (sortDesc scores).filter (fun p => p.2 = q)
        = scores.filter (fun p => p.2 = q) := by
  refine ⟨?_, sorted_sortDesc scores, fun q => filter_sortDesc scores q⟩
  unfold map_categories_to_emotions map_categories_spec selectedLabels
  dsimp only
  rw [fold_select_eq, List.nil_append]
  have hid : (((sortDesc scores).filter (fun p => 0.5 < p.2)).filterMap
        (fun p => emotionMapping.lookup p.1)).filter
          (fun e => e ∉ ([] : List String))
      = ((sortDesc scores).filter (fun p => 0.5 < p.2)).filterMap
          (fun p => emotionMapping.lookup p.1) := by
    apply (List.filter_eq_self).mpr
    intro a _
    simp
  rw [hid]

/-! ### Claim C9 -/

/-- `isinstance(config_data, dict)` (line 172). -/
def isDict : RawData → Bool
  | .list => false
  | .dict _ => true

/-- Accessing the mapping fields of a raw category value as Python attribute
or key access does: it raises on a non-mapping value. -/
def rawFields : RawData → Except String CatConfig
  | .list => .error "TypeError: value is not a mapping"
  | .dict c => .ok c

/-- `_analyze_category` with the potentially raising access made explicit:
the isinstance guards (lines 167-174) return score 0 before any raising
access can happen. -/
def analyze_category_checked (compile : String → Option (String → Nat))
    (text : String) (d : RawData) : Except String ℚ :=
  if isDict d = false then .ok 0
  else do
    let c ← rawFields d
    .ok (analyze_category compile text (.dict c))

/-- The category loop with raising semantics threaded through. -/
def emotion_scores_checked (compile : String → Option (String → Nat))
    (cfg : List (String × RawData)) (text : String) :
    Except String (List (String × ℚ)) :=
  cfg.foldlM
    (fun acc p => do
      let s ← analyze_category_checked compile text p.2
      pure (if 0 < s then acc ++ [(p.1, s)] else acc)) []

/-- `analyze_single_segment` with raising semantics threaded through. -/
def analyze_single_segment_checked (compile : String → Option (String → Nat))
    (cfg : List (String × RawData)) (transcript : String)
    (use_fast_mode : Bool) (is_conversation_start : Bool) :
    Except String AffectDescriptor :=
  let _ := use_fast_mode
  if pyStrip transcript = "" then .ok silenceDescriptor
  else do
    let scores ← emotion_scores_checked compile cfg (pyStrip transcript)
    .ok (assembleFromScores scores (pyStrip transcript) is_conversation_start)

lemma analyze_category_checked_ok (compile : String → Option (String → Nat))
    (text : String) (d : RawData) :
    analyze_category_checked compile text d
      = .ok (analyze_category compile text d) := by
  cases d with
  | list => rfl
  | dict c => rfl

lemma emotion_scores_checked_ok (compile : String → Option (String → Nat))
    (cfg : List (String × RawData)) (text : String) :
    emotion_scores_checked compile cfg text
      = .ok (emotion_scores_of compile cfg text) := by
  unfold emotion_scores_checked emotion_scores_of
  suffices H : ∀ (l : List (String × RawData)) (acc : List (String × ℚ)),
      l.foldlM
        (fun acc p => do
          let s ← analyze_category_checked compile text p.2
          pure (if 0 < s then acc ++ [(p.1, s)] else acc)) acc
      = .ok (l.foldl
          (fun acc p =>
            let s := analyze_category compile text p.2
            if 0 < s then acc ++ [(p.1, s)] else acc) acc) from H cfg []
  intro l
  induction l with
  | nil => intro acc; rfl
  | cons p l ih =>
    intro acc
    rw [List.foldlM_cons, analyze_category_checked_ok, List.foldl_cons]
    exact ih _

/-- Claim C9: the analysis is total.  A category whose raw value is not a
mapping contributes nothing (it is dropped from the score map entirely); a
regex the compiler rejects is skipped while the rest of its category still
applies; and the exception-explicit analysis always returns `ok` with the
plain result, for every configuration and every string input. -/
theorem C9_totality (compile : String → Option (String → Nat)) (text : String) :
    (∀ (cfg₁ cfg₂ : List (String × RawData)) (c : String),
      emotion_scores_of compile (cfg₁ ++ (c, RawData.list) :: cfg₂) text
        = emotion_scores_of compile (cfg₁ ++ cfg₂) text)
    ∧ (∀ pat : String, compile pat = none →
        ∀ (l₁ l₂ : List String) (w : ℚ) (ws phs : List String),
          analyze_category compile text
              (.dict { weight := w, words := ws, phrases := phs,
                       patterns := l₁ ++ pat :: l₂ })
            = analyze_category compile text
                (.dict { weight := w, words := ws, phrases := phs,
                         patterns := l₁ ++ l₂ }))
    ∧ (∀ (cfg : List (String × RawData)) (transcript : String) (fast start : Bool),
        analyze_single_segment_checked compile cfg transcript fast start
          = .ok (analyze_single_segment compile cfg transcript fast start)) := by
  refine ⟨?_, ?_, ?_⟩
  · intro cfg₁ cfg₂ c
    unfold emotion_scores_of
    rw [List.foldl_append, List.foldl_append, List.foldl_cons]
    congr 1
  · intro pat hnone l₁ l₂ w ws phs
    unfold analyze_category
    dsimp only
    simp only [compile_patterns, List.filterMap_append, List.filterMap_cons, hnone]
  · intro cfg transcript fast start
    unfold analyze_single_segment_checked analyze_single_segment
    dsimp only
    by_cases h : pyStrip transcript = ""
    · rw [if_pos h, if_pos h]
    · rw [if_neg h, if_neg h, emotion_scores_checked_ok]
      rfl

/-- Witness for C9: a category with one uncompilable pattern scores as if that
pattern were absent (words still apply). -/
theorem C9_totality_witness :
    compileNone "[" = none
    ∧ analyze_category compileNone "שלום"
        (.dict { weight := 1, words := ["כן"], phrases := [], patterns := ["["] })
      = analyze_category compileNone "שלום"
          (.dict { weight := 1, words := ["כן"], phrases := [], patterns := [] }) := by
  refine ⟨rfl, ?_⟩
  exact (C9_totality compileNone "שלום").2.1 "[" rfl [] [] 1 ["כן"] []

/-! ### Claim C10 -/

/-- Counterexample to C10 as stated: appending the strong-agreement phrase
"מסכים" to the text "מסכים? לא " strictly decreases net-agreement (1 → −1),
because the phrase was already present (no new agreement boost) while the
append completes the strong-disagreement phrase "לא מסכים"; proximity
regresses from close to far_away. -/
theorem C10_counterexample :
    "מסכים" ∈ strongAgreementPhrases
    ∧ netAgreement
          (emotion_scores_of compileNone fallbackConfig ("מסכים? לא " ++ "מסכים"))
          ("מסכים? לא " ++ "מסכים")
        < netAgreement
            (emotion_scores_of compileNone fallbackConfig "מסכים? לא ")
            "מסכים? לא "
    ∧ calculate_proximity
          (emotion_scores_of compileNone fallbackConfig "מסכים? לא ")
          "מסכים? לא " = "close"
    ∧ calculate_proximity
          (emotion_scores_of compileNone fallbackConfig ("מסכים? לא " ++ "מסכים"))
          ("מסכים? לא " ++ "מסכים") = "far away" := by
  have hT : ("מסכים? לא " ++ "מסכים") = "מסכים? לא מסכים" := by decide
  rw [hT]
  have hs1 : emotion_scores_of compileNone fallbackConfig "מסכים? לא "
      = [("disagreement_indicators", 1)] := by
    norm_num [emotion_scores_of, fallbackConfig, analyze_category, compile_patterns,
      show inLowLow "חח" "מסכים? לא " = false from by decide,
      show inLowLow "מצחיק" "מסכים? לא " = false from by decide,
      show inLowLow "כן" "מסכים? לא " = false from by decide,
      show inLowLow "נכון" "מסכים? לא " = false from by decide,
      show inLowLow "לא" "מסכים? לא " = true from by decide,
      show inLowLow "אבל" "מסכים? לא " = false from by decide]
  have hs2 : emotion_scores_of compileNone fallbackConfig "מסכים? לא מסכים"
      = [("disagreement_indicators", 1)] := by
    norm_num [emotion_scores_of, fallbackConfig, analyze_category, compile_patterns,
      show inLowLow "חח" "מסכים? לא מסכים" = false from by decide,
      show inLowLow "מצחיק" "מסכים? לא מסכים" = false from by decide,
      show inLowLow "כן" "מסכים? לא מסכים" = false from by decide,
      show inLowLow "נכון" "מסכים? לא מסכים" = false from by decide,
      show inLowLow "לא" "מסכים? לא מסכים" = true from by decide,
      show inLowLow "אבל" "מסכים? לא מסכים" = false from by decide]
  rw [hs1, hs2]
  have hbeq : (("agreement_indicators" : String) == "disagreement_indicators")
      = false := by decide
  have hnet1 : netAgreement [(("disagreement_indicators" : String), (1:ℚ))]
      "מסכים? לא " = 1 := by
    norm_num [netAgreement, agreementSide, disagreementSide, phraseHitScore,
      getScore, List.lookup, hbeq,
      show strongAgreementPhrases.countP
        (fun ph => inLow ph "מסכים? לא ") = 1 from by decide,
      show strongDisagreementPhrases.countP
        (fun ph => inLow ph "מסכים? לא ") = 0 from by decide]
  have hnet2 : netAgreement [(("disagreement_indicators" : String), (1:ℚ))]
      "מסכים? לא מסכים" = -1 := by
    norm_num [netAgreement, agreementSide, disagreementSide, phraseHitScore,
      getScore, List.lookup, hbeq,
      show strongAgreementPhrases.countP
        (fun ph => inLow ph "מסכים? לא מסכים") = 1 from by decide,
      show strongDisagreementPhrases.countP
        (fun ph => inLow ph "מסכים? לא מסכים") = 1 from by decide]
  refine ⟨by decide, ?_, ?_, ?_⟩
  · rw [hnet1, hnet2]
    norm_num
  · unfold calculate_proximity
    rw [hnet1]
    norm_num
  · unfold calculate_proximity
    rw [hnet2]
    norm_num

lemma countP_inLow_mono (l : List String) (a b : String) :
    l.countP (fun ph => inLow ph a) ≤ l.countP (fun ph => inLow ph (a ++ b)) :=
  List.countP_mono_left (fun _ _ h => inLow_append b h)

lemma countP_inLowLow_mono (l : List String) (a b : String) :
    l.countP (fun w => inLowLow w a) ≤ l.countP (fun w => inLowLow w (a ++ b)) :=
  List.countP_mono_left (fun _ _ h => inLowLow_append b h)

lemma analyze_category_fallback_words (compile : String → Option (String → Nat))
    (text : String) (ws : List String) :
    analyze_category compile text (RawData.dict { words := ws })
      = ((ws.countP (fun w => inLowLow w text) : ℕ) : ℚ) := by
  unfold analyze_category
  dsimp only
  rw [foldl_if_add (fun w => inLowLow w text) (1 : ℚ)]
  show ((0 : ℚ) + 1 * _) = _
  norm_num [compile_patterns]

lemma getScore_fallback_agreement (compile : String → Option (String → Nat))
    (text : String) :
    getScore (emotion_scores_of compile fallbackConfig text) "agreement_indicators"
      = analyze_category compile text (RawData.dict { words := ["כן", "נכון"] }) := by
  have hk1 : (("agreement_indicators" : String) == "humor_indicators") = false := by
    decide
  have hk3 : (("agreement_indicators" : String) == "disagreement_indicators")
      = false := by decide
  have hnn : (0:ℚ) ≤ analyze_category compile text
      (RawData.dict { words := ["כן", "נכון"] }) := by
    rw [analyze_category_fallback_words]
    positivity
  unfold emotion_scores_of fallbackConfig
  simp only [List.foldl_cons, List.foldl_nil]
  by_cases hh : 0 < analyze_category compile text
      (RawData.dict { words := ["חח", "מצחיק"] }) <;>
    by_cases ha : 0 < analyze_category compile text
      (RawData.dict { words := ["כן", "נכון"] }) <;>
    by_cases hd : 0 < analyze_category compile text
      (RawData.dict { words := ["לא", "אבל"] }) <;>
    simp only [hh, ha, hd, if_true, if_false, List.nil_append, ite_true, ite_false,
      List.cons_append, getScore, List.lookup, hk1, hk3, beq_self_eq_true] <;>
    first
    | rfl
    | exact (le_antisymm (not_lt.mp ha) hnn).symm

/-- Claim C10 (amended): appending any suffix — in particular a
strong-agreement phrase — never decreases the agreement side of the proximity
calculation (the agreement_indicators category score plus the +2.0
strong-agreement phrase boost) under the built-in configuration; the net
agreement itself, however, can strictly decrease and proximity can regress
(see the counterexample), because the appended phrase may complete a
strong-disagreement phrase match. -/
theorem C10_amended_agreement_side_monotone
    (compile : String → Option (String → Nat)) (text suffix : String) :
    agreementSide (emotion_scores_of compile fallbackConfig text) text
      ≤ agreementSide
          (emotion_scores_of compile fallbackConfig (text ++ suffix))
          (text ++ suffix) := by
  unfold agreementSide
  rw [getScore_fallback_agreement, getScore_fallback_agreement,
    analyze_category_fallback_words, analyze_category_fallback_words]
  unfold phraseHitScore
  have m1 : ((["כן", "נכון"].countP (fun w => inLowLow w text) : ℕ) : ℚ)
      ≤ ((["כן", "נכון"].countP (fun w => inLowLow w (text ++ suffix)) : ℕ) : ℚ) := by
    exact_mod_cast countP_inLowLow_mono ["כן", "נכון"] text suffix
  have m2 : ((strongAgreementPhrases.countP (fun ph => inLow ph text) : ℕ) : ℚ)
      ≤ ((strongAgreementPhrases.countP
          (fun ph => inLow ph (text ++ suffix)) : ℕ) : ℚ) := by
    exact_mod_cast countP_inLow_mono strongAgreementPhrases text suffix
  nlinarith [m1, m2]

end EmotionVisualizer
